import Mathlib

/-!
# Amrutha Dental Clinic backend: OTP gate and appointment lifecycle

A shallow embedding of the request handlers of `src/index.js` and the
properties of the specification that can be settled on it.

Conventions of the embedding.

* The in-memory `otpStore` object is an association list from the normalized
  phone to the stored number.  Every key the handlers use starts with `+`, so
  no key ever collides with an inherited property of a JavaScript object.
* `Math.random()` is an input: `sendOtp` receives the value of
  `Math.floor(100000 + Math.random() * 900000)` as its argument `otp`.
* The Twilio client is an input: the flag `deliver` says whether
  `client.messages.create` resolves (`true`) or throws (`false`).  The message
  handed to the client, when one is handed over, is part of the result.
* The Sequelize store is a list of records; `findByPk`, `save` and `destroy`
  are the list operations below and never throw.
-/

namespace AmruthaDental

/-! ## JavaScript values and the builtins the handlers call -/

/-- A value of a field of the JSON request body.  `num n` is an integer-valued
number whose `ToString` is its plain decimal numeral (magnitude below `10^21`);
arrays, objects and fractional numbers are outside the embedding. -/
inductive JsVal where
  | undefined
  | null
  | bool (b : Bool)
  | num (n : Int)
  | str (s : String)
  deriving DecidableEq, Repr

/-- `Number::toString` on an integer: the decimal numeral, with a leading `-` when negative. -/
def numToString (n : Int) : String :=
  if n < 0 then "-" ++ Nat.repr n.natAbs else Nat.repr n.natAbs

/-- The abstract operation `ToString` of ECMAScript. -/
def jsToString : JsVal → String
  | .undefined => "undefined"
  | .null => "null"
  | .bool true => "true"
  | .bool false => "false"
  | .num n => numToString n
  | .str s => s

/-- The abstract operation `ToBoolean` of ECMAScript. -/
def jsTruthy : JsVal → Bool
  | .undefined => false
  | .null => false
  | .bool b => b
  | .num n => n != 0
  | .str s => s != ""

/-- The characters `parseInt` skips at the start of its input (`WhiteSpace` and
`LineTerminator` of ECMAScript). -/
def isStrWhiteSpace (c : Char) : Bool :=
  let v := c.toNat
  v == 0x09 || v == 0x0A || v == 0x0B || v == 0x0C || v == 0x0D || v == 0x20 ||
  v == 0xA0 || v == 0x1680 || (0x2000 ≤ v && v ≤ 0x200A) || v == 0x2028 ||
  v == 0x2029 || v == 0x202F || v == 0x205F || v == 0x3000 || v == 0xFEFF

/-- The value of a character as a digit, letters counting from ten. -/
def digitValue (c : Char) : Option Nat :=
  let v := c.toNat
  if 48 ≤ v ∧ v ≤ 57 then some (v - 48)
  else if 97 ≤ v ∧ v ≤ 122 then some (v - 87)
  else if 65 ≤ v ∧ v ≤ 90 then some (v - 55)
  else none

/-- Whether the character is a digit of radix `R`. -/
def isRadixDigit (R : Nat) (c : Char) : Bool :=
  match digitValue c with
  | some d => decide (d < R)
  | none => false

/-- The integer a run of radix-`R` digits denotes. -/
def radixValue (R : Nat) (cs : List Char) : Nat :=
  cs.foldl (fun acc c => acc * R + (digitValue c).getD 0) 0

/-- The sign step of `parseInt`: a leading `-` or `+` is consumed. -/
def splitSign : List Char → Int × List Char
  | '-' :: r => (-1, r)
  | '+' :: r => (1, r)
  | s => (1, s)

/-- The radix step of `parseInt` called without a radix: `0x` or `0X` selects
sixteen and is consumed, anything else is read in radix ten. -/
def splitRadix : List Char → Nat × List Char
  | '0' :: 'x' :: r => (16, r)
  | '0' :: 'X' :: r => (16, r)
  | s => (10, s)

/-- The builtin `parseInt(string)` on the characters of its (stringified)
argument; `none` stands for `NaN`.  The result is the exact integer; the
handlers only compare it with six-digit numbers, where the rounding of very
long numerals to a double cannot make a difference. -/
def parseIntChars (cs : List Char) : Option Int :=
  let s := cs.dropWhile isStrWhiteSpace
  let sg := splitSign s
  let rx := splitRadix sg.2
  let z := rx.2.takeWhile (isRadixDigit rx.1)
  if z.isEmpty then none else some (sg.1 * (radixValue rx.1 z : Int))

/-- The builtin `parseInt(v)`: the argument is stringified first. -/
def parseInt (v : JsVal) : Option Int :=
  parseIntChars (jsToString v).data

/-- The operator `===` on two results of `parseInt`: `NaN` equals nothing. -/
def numStrictEq : Option Int → Option Int → Bool
  | some a, some b => a == b
  | _, _ => false

/-- The call `phone.startsWith('+')`. -/
def startsWithPlus (phone : String) : Bool :=
  match phone.data with
  | c :: _ => c == '+'
  | [] => false

/-! ## The OTP gate -/

/-- The object `otpStore`: normalized phone to stored code. -/
abbrev OtpStore := List (String × Nat)

/-- The read `otpStore[key]`; `none` stands for `undefined`. -/
def OtpStore.get (store : OtpStore) (key : String) : Option Nat :=
  store.lookup key

/-- The statement `delete otpStore[key]`. -/
def OtpStore.delete (store : OtpStore) (key : String) : OtpStore :=
  store.filter (fun e => e.1 != key)

/-- The assignment `otpStore[key] = value`. -/
def OtpStore.set (store : OtpStore) (key : String) (value : Nat) : OtpStore :=
  (key, value) :: OtpStore.delete store key

/-- A message handed to `client.messages.create`: its fields `to` (here `dest`)
and `body`; the field `from` is a constant of the environment. -/
structure Sms where
  dest : String
  body : String
  deriving DecidableEq, Repr

/-- What a handler of the OTP gate leaves behind: the HTTP answer, the store
and the message handed to the channel, if any. -/
structure OtpResult where
  status : Nat
  success : Bool
  message : String
  store : OtpStore
  sms : Option Sms
  deriving DecidableEq, Repr

/-- The handler `POST /send-otp`.  `otp` is the generated number and `deliver`
the outcome of the channel. -/
def sendOtp (store : OtpStore) (phone : String) (name : JsVal) (otp : Nat)
    (deliver : Bool) : OtpResult :=
  let formattedNum := if startsWithPlus phone then phone else "+91" ++ phone
  let store1 := OtpStore.set store formattedNum otp
  let shown := if jsTruthy name then name else JsVal.str "User"
  let sms : Sms :=
    { dest := formattedNum
      body := "Hello " ++ jsToString shown ++ ", your OTP is: " ++ Nat.repr otp }
  if deliver then
    { status := 200, success := true, message := "OTP Sent", store := store1, sms := some sms }
  else
    { status := 500, success := false, message := "Failed to send SMS", store := store1,
      sms := some sms }

/-- The condition of the `if` in `POST /verify-otp`, on the stored value read
from the store and the submitted claim. -/
def otpMatches (savedOtp : Option Nat) (otp : JsVal) : Bool :=
  (match savedOtp with
    | some v => v != 0 && numStrictEq (parseInt (JsVal.num v)) (parseInt otp)
    | none => false)
  || otp == JsVal.str "123456"

/-- The handler `POST /verify-otp`. -/
def verifyOtp (store : OtpStore) (phone : String) (otp : JsVal) : OtpResult :=
  let formattedNum := if startsWithPlus phone then phone else "+91" ++ phone
  let savedOtp := OtpStore.get store formattedNum
  if otpMatches savedOtp otp then
    { status := 200, success := true, message := "Verification Successful",
      store := OtpStore.delete store formattedNum, sms := none }
  else
    { status := 400, success := false, message := "Invalid or Expired OTP",
      store := store, sms := none }

/-- The normalization rule of the specification: a phone starting with `+` is
kept, any other gets the country code `+91` in front. -/
def normalize (p : String) : String :=
  if startsWithPlus p then p else "+91" ++ p

/-- The number a claim stands for in the words of the specification
("numerically equals"): a number is itself, a string is the number whose plain
decimal numeral it is, anything else is no number. -/
def claimNumber : JsVal → Option Int
  | .num n => some n
  | .str s =>
    if s.data ≠ [] ∧ s.data.all (isRadixDigit 10) = true then some (radixValue 10 s.data : Int)
    else none
  | _ => none

/-- The acceptance condition in the words of the specification: a code is
stored under the normalized phone and numerically equals the claim, or the
claim equals the bypass value 123456. -/
def specAccepts (store : OtpStore) (p : String) (c : JsVal) : Bool :=
  (match OtpStore.get store (normalize p) with
    | some code => claimNumber c == some (code : Int)
    | none => false)
  || claimNumber c == some 123456

/-! ## The persistence store -/

/-- A row of the model `User` (the columns the modelled handlers read or write). -/
structure User where
  id : Nat
  username : String
  phone : String
  role : String
  deriving DecidableEq, Repr

/-- A row of the model `Appointment`; `UserId` is the foreign key that
`Appointment.belongsTo(User)` adds. -/
structure Appointment where
  id : Nat
  date : String
  time : String
  service : String
  status : String
  rating : Int
  review : String
  isVisible : Bool
  totalSittings : Int
  currentSitting : Int
  UserId : Option Nat
  deriving DecidableEq, Repr

/-- The two tables of the database the modelled handlers use. -/
structure Db where
  users : List User
  appointments : List Appointment
  deriving DecidableEq, Repr

/-- The call `Appointment.findByPk(id)`. -/
def findByPk (db : Db) (id : Nat) : Option Appointment :=
  db.appointments.find? (fun a => a.id == id)

/-- The association `appt.User` loaded by the option `include: User`; `none`
stands for `null`. -/
def apptUser (db : Db) (appt : Appointment) : Option User :=
  match appt.UserId with
  | none => none
  | some uid => db.users.find? (fun u => u.id == uid)

/-- The call `appt.save()`: the row with the key of `appt` is overwritten. -/
def save (db : Db) (appt : Appointment) : Db :=
  { db with appointments := db.appointments.map (fun b => if b.id == appt.id then appt else b) }

/-- The call `Appointment.destroy` with the filter `id`: the number of rows
removed and the table without them. -/
def destroy (db : Db) (id : Nat) : Nat × Db :=
  ((db.appointments.filter (fun a => a.id == id)).length,
   { db with appointments := db.appointments.filter (fun a => a.id != id) })

/-! ## The appointment lifecycle handlers -/

/-- What a lifecycle handler leaves behind: the HTTP status, the `message`
field of the JSON answer (empty when the answer is a serialized exception),
the database and the message handed to the channel, if any. -/
structure Result where
  status : Nat
  message : String
  db : Db
  sms : Option Sms
  deriving DecidableEq, Repr

/-- The text of the notification of `PUT /accept/:id`. -/
def acceptText (username service date time : String) : String :=
  "Hello " ++ username ++ ", appointment confirmed for " ++ service ++ " on " ++ date ++
    " at " ++ time ++ "."

/-- The text of the notification of a sitting that is not the last one. -/
def sittingText (currentSitting : Int) (service nextDate nextTime : String) : String :=
  "Sitting " ++ numToString currentSitting ++ " for " ++ service ++ " is done. Next sitting: " ++
    nextDate ++ " at " ++ nextTime ++ "."

/-- The text of the finishing notification. -/
def finishingText (service : String) : String :=
  "Treatment for " ++ service ++ " is fully completed! Thank you for choosing Amrutha Dental Clinic."

/-- The text of the notification of `PUT /decline/:id`. -/
def declineText (date : String) : String :=
  "Appointment on " ++ date ++ " has been CANCELLED."

/-- The text of the notification of `PUT /schedule-next/:id`. -/
def scheduleNextText (currentSitting : Int) (service nextDate nextTime : String) : String :=
  "Sitting " ++ numToString currentSitting ++ " done! Next sitting for " ++ service ++ " is on " ++
    nextDate ++ " at " ++ nextTime ++ "."

/-- The inner `try` of the handlers that read `appt.User.phone`: with no user
the property access throws before anything reaches the channel, and the
`catch` answers as for a failed delivery. -/
def notify (db : Db) (user : Option User) (body : String) (sent failed : String)
    (deliver : Bool) : Result :=
  match user with
  | none => { status := 200, message := failed, db := db, sms := none }
  | some u =>
    if deliver then
      { status := 200, message := sent, db := db, sms := some { dest := u.phone, body := body } }
    else
      { status := 200, message := failed, db := db, sms := some { dest := u.phone, body := body } }

/-- The handler `PUT /accept/:id`. -/
def accept (db : Db) (id : Nat) (time : String) (deliver : Bool) : Result :=
  match findByPk db id with
  | none => { status := 404, message := "Not Found", db := db, sms := none }
  | some appt =>
    let appt1 := { appt with status := "confirmed", time := time }
    let db1 := save db appt1
    match apptUser db appt with
    | none => { status := 200, message := "Confirmed (SMS Failed)", db := db1, sms := none }
    | some u =>
      notify db1 (some u) (acceptText u.username appt1.service appt1.date time)
        "Confirmed & SMS Sent" "Confirmed (SMS Failed)" deliver

/-- The handler `PUT /complete-sitting/:id`. -/
def completeSitting (db : Db) (id : Nat) (nextDate nextTime : String) (deliver : Bool) : Result :=
  match findByPk db id with
  | none => { status := 404, message := "Not Found", db := db, sms := none }
  | some appt =>
    let appt1 := { appt with currentSitting := appt.currentSitting + 1 }
    if appt1.currentSitting < appt1.totalSittings then
      let appt2 := { appt1 with date := nextDate, time := nextTime, status := "confirmed" }
      notify (save db appt2) (apptUser db appt)
        (sittingText appt2.currentSitting appt2.service nextDate nextTime)
        "Sitting Updated & SMS Sent" "Sitting Updated (SMS Failed)" deliver
    else
      let appt2 := { appt1 with status := "completed" }
      notify (save db appt2) (apptUser db appt) (finishingText appt2.service)
        "Treatment Completed & Final SMS Sent" "Treatment Completed (SMS Failed)" deliver

/-- The handler `PUT /decline/:id`; with no user the message goes to the empty
destination. -/
def decline (db : Db) (id : Nat) (deliver : Bool) : Result :=
  match findByPk db id with
  | none => { status := 404, message := "Not found", db := db, sms := none }
  | some appt =>
    let appt1 := { appt with status := "cancelled" }
    let db1 := save db appt1
    let dest := match apptUser db appt with
      | some u => u.phone
      | none => ""
    let sms : Sms := { dest := dest, body := declineText appt1.date }
    if deliver then
      { status := 200, message := "Cancelled & SMS Sent", db := db1, sms := some sms }
    else
      { status := 200, message := "Cancelled (SMS Failed)", db := db1, sms := some sms }

/-- The handler `DELETE /appointment/:id`. -/
def deleteAppointment (db : Db) (id : Nat) : Result :=
  let r := destroy db id
  { status := 200, message := if r.1 != 0 then "Deleted" else "Not Found", db := r.2, sms := none }

/-- The handler `PUT /schedule-next/:id`.  It has no inner `try`: a missing
row, a missing user and a failed delivery all end in the outer `catch`, which
answers 500 with the serialized exception, after whatever was saved. -/
def scheduleNext (db : Db) (id : Nat) (nextDate nextTime : String) (deliver : Bool) : Result :=
  match findByPk db id with
  | none => { status := 500, message := "", db := db, sms := none }
  | some appt =>
    let appt1 := { appt with currentSitting := appt.currentSitting + 1 }
    if appt1.currentSitting < appt1.totalSittings then
      let appt2 := { appt1 with date := nextDate, time := nextTime }
      let db1 := save db appt2
      match apptUser db appt with
      | none => { status := 500, message := "", db := db1, sms := none }
      | some u =>
        let sms : Sms :=
          { dest := u.phone
            body := scheduleNextText appt2.currentSitting appt2.service nextDate nextTime }
        if deliver then
          { status := 200, message := "Next sitting scheduled & SMS sent", db := db1,
            sms := some sms }
        else
          { status := 500, message := "", db := db1, sms := some sms }
    else
      let appt2 := { appt1 with status := "completed" }
      { status := 200, message := "Treatment fully completed!", db := save db appt2, sms := none }

/-- The key `User.create` gives a new row: one more than the largest in use. -/
def nextUserId (db : Db) : Nat :=
  (db.users.map (fun u => u.id)).foldr max 0 + 1

/-- The handler `POST /register`: the database it leaves and the user it answers with. -/
def register (db : Db) (username phone : String) (secret : JsVal) : Db × User :=
  let formattedPhone := if startsWithPlus phone then phone else "+91" ++ phone
  let role := if secret == JsVal.str "xwan@5847" then "admin" else "patient"
  match db.users.find? (fun u => u.phone == formattedPhone) with
  | none =>
    let user : User :=
      { id := nextUserId db, username := username, phone := formattedPhone, role := role }
    ({ db with users := db.users ++ [user] }, user)
  | some user =>
    if role == "admin" then
      let user1 := { user with role := "admin" }
      ({ db with users := db.users.map (fun u => if u.id == user1.id then user1 else u) }, user1)
    else (db, user)

/-! ## Sequences of lifecycle transitions -/

/-- A call of one of the three lifecycle transitions, with its request body
and the outcome of the channel. -/
inductive Transition where
  | accept (time : String) (deliver : Bool)
  | decline (deliver : Bool)
  | completeSitting (nextDate nextTime : String) (deliver : Bool)
  deriving DecidableEq, Repr

/-- The result of one transition on the appointment `id`. -/
def Transition.apply (db : Db) (id : Nat) : Transition → Result
  | .accept time deliver => AmruthaDental.accept db id time deliver
  | .decline deliver => AmruthaDental.decline db id deliver
  | .completeSitting nextDate nextTime deliver =>
      AmruthaDental.completeSitting db id nextDate nextTime deliver

/-- The database after a sequence of transitions on the appointment `id`. -/
def runTransitions (db : Db) (id : Nat) (ts : List Transition) : Db :=
  ts.foldl (fun d t => (Transition.apply d id t).db) db

/-- The record `PUT /complete-sitting/:id` saves for the record it found. -/
def sittingRecord (a : Appointment) (nextDate nextTime : String) : Appointment :=
  if a.currentSitting + 1 < a.totalSittings then
    { a with currentSitting := a.currentSitting + 1, date := nextDate, time := nextTime,
             status := "confirmed" }
  else
    { a with currentSitting := a.currentSitting + 1, status := "completed" }

/-- The database after a sequence of calls of `PUT /complete-sitting/:id` on
the appointment `id`, each with its `nextDate`, its `nextTime` and the outcome
of the channel. -/
def completeSittings (db : Db) (id : Nat) (calls : List (String × String × Bool)) : Db :=
  calls.foldl (fun d c => (completeSitting d id c.1 c.2.1 c.2.2).db) db

/-- Whether a transition is a call of complete-a-sitting. -/
def Transition.isSitting : Transition → Bool
  | .completeSitting _ _ _ => true
  | _ => false

/-- The number of complete-a-sitting calls in a sequence of transitions. -/
def countSittings (ts : List Transition) : Nat :=
  (ts.filter Transition.isSitting).length

/-- Whether the last transition of a sequence is a complete-a-sitting call. -/
def endsWithSitting (ts : List Transition) : Bool :=
  match ts.getLast? with
  | some t => t.isSitting
  | none => false

/-! ## Sample data -/

/-- A patient. -/
def sampleUser : User :=
  { id := 1, username := "Asha", phone := "+919876543210", role := "patient" }

/-- A freshly booked appointment of three sittings. -/
def sampleAppt : Appointment :=
  { id := 1, date := "2024-05-01", time := "09:30", service := "Root Canal", status := "pending",
    rating := 0, review := "", isVisible := false, totalSittings := 3, currentSitting := 0,
    UserId := some 1 }

/-- A freshly booked appointment of a single sitting. -/
def singleAppt : Appointment :=
  { id := 2, date := "2024-05-02", time := "11:00", service := "Cleaning", status := "pending",
    rating := 0, review := "", isVisible := false, totalSittings := 1, currentSitting := 0,
    UserId := some 1 }

/-- A database with one patient and the two appointments above. -/
def sampleDb : Db :=
  { users := [sampleUser], appointments := [sampleAppt, singleAppt] }

/-- A freshly booked appointment of a single sitting whose request body named
no user: the column `UserId` is null. -/
def ownerlessAppt : Appointment :=
  { id := 3, date := "2024-05-03", time := "12:00", service := "Filling", status := "pending",
    rating := 0, review := "", isVisible := false, totalSittings := 1, currentSitting := 0,
    UserId := none }

/-- A database with one patient and the appointment without owner. -/
def ownerlessDb : Db :=
  { users := [sampleUser], appointments := [ownerlessAppt] }

/-! ## Lemmas on the builtins -/

theorem isRadixDigit_ten_range (c : Char) (h : isRadixDigit 10 c = true) :
    48 ≤ c.toNat ∧ c.toNat ≤ 57 := by
  unfold isRadixDigit digitValue at h
  by_contra hcon
  simp only [hcon, if_false] at h
  split_ifs at h <;> simp at h <;> omega

theorem isRadixDigit_digitChar (k : Nat) (hk : k < 10) :
    isRadixDigit 10 (Nat.digitChar k) = true := by
  interval_cases k <;> rfl

theorem digitValue_digitChar (k : Nat) (hk : k < 10) :
    digitValue (Nat.digitChar k) = some k := by
  interval_cases k <;> rfl

theorem toDigitsCore_all (fuel : Nat) :
    ∀ (n : Nat) (ds : List Char), (∀ c ∈ ds, isRadixDigit 10 c = true) →
      ∀ c ∈ Nat.toDigitsCore 10 fuel n ds, isRadixDigit 10 c = true := by
  induction fuel with
  | zero => intro n ds h; simpa [Nat.toDigitsCore] using h
  | succ f ih =>
    intro n ds h
    have hd : isRadixDigit 10 (Nat.digitChar (n % 10)) = true :=
      isRadixDigit_digitChar _ (Nat.mod_lt _ (by decide))
    have hcons : ∀ c ∈ Nat.digitChar (n % 10) :: ds, isRadixDigit 10 c = true := by
      intro c hc
      rcases List.mem_cons.mp hc with rfl | hc
      · exact hd
      · exact h c hc
    simp only [Nat.toDigitsCore]
    split
    · exact hcons
    · exact ih _ _ hcons

theorem toDigitsCore_ne_nil (fuel : Nat) :
    ∀ (n : Nat) (ds : List Char), ds ≠ [] → Nat.toDigitsCore 10 fuel n ds ≠ [] := by
  induction fuel with
  | zero => intro n ds h; simpa [Nat.toDigitsCore] using h
  | succ f ih =>
    intro n ds _
    simp only [Nat.toDigitsCore]
    split
    · exact List.cons_ne_nil _ _
    · exact ih _ _ (List.cons_ne_nil _ _)

theorem toDigitsCore_value (fuel : Nat) :
    ∀ (n : Nat) (ds : List Char), n < fuel →
      (Nat.toDigitsCore 10 fuel n ds).foldl (fun acc c => acc * 10 + (digitValue c).getD 0) 0
        = ds.foldl (fun acc c => acc * 10 + (digitValue c).getD 0) n := by
  induction fuel with
  | zero => intro n ds h; omega
  | succ f ih =>
    intro n ds hn
    have hdv := digitValue_digitChar (n % 10) (Nat.mod_lt _ (by decide))
    simp only [Nat.toDigitsCore]
    split
    · rename_i h0
      have hlt : n < 10 := by
        by_contra hge
        have : 1 ≤ n / 10 := Nat.div_pos (by omega) (by decide)
        omega
      simp only [List.foldl_cons, hdv, Option.getD_some, Nat.zero_mul, Nat.zero_add]
      rw [Nat.mod_eq_of_lt hlt]
    · rename_i h0
      have hlt : n / 10 < f := by omega
      rw [ih (n / 10) _ hlt]
      simp only [List.foldl_cons, hdv, Option.getD_some]
      have : n / 10 * 10 + n % 10 = n := by omega
      rw [this]

theorem toDigits_ne_nil (n : Nat) : Nat.toDigits 10 n ≠ [] := by
  unfold Nat.toDigits
  simp only [Nat.toDigitsCore]
  split
  · exact List.cons_ne_nil _ _
  · exact toDigitsCore_ne_nil _ _ _ (List.cons_ne_nil _ _)

theorem parseIntChars_digits (l : List Char) (hne : l ≠ [])
    (hall : ∀ c ∈ l, isRadixDigit 10 c = true) :
    parseIntChars l = some (radixValue 10 l : Int) := by
  obtain ⟨c, r, rfl⟩ := List.exists_cons_of_ne_nil hne
  have hc := isRadixDigit_ten_range c (hall c (List.mem_cons_self _ _))
  have hws : isStrWhiteSpace c = false := by
    simp only [isStrWhiteSpace, Bool.or_eq_false_iff, Bool.and_eq_false_iff, beq_eq_false_iff_ne,
      decide_eq_false_iff_not]
    omega
  have hdrop : (c :: r).dropWhile isStrWhiteSpace = c :: r := by
    simp [List.dropWhile, hws]
  have hsign : splitSign (c :: r) = (1, c :: r) := by
    unfold splitSign
    split
    · rename_i heq
      have : c = '-' := (List.cons.inj heq).1
      subst this
      simp at hc
    · rename_i heq
      have : c = '+' := (List.cons.inj heq).1
      subst this
      simp at hc
    · rfl
  have hradix : splitRadix (c :: r) = (10, c :: r) := by
    unfold splitRadix
    split
    · rename_i r0 heq
      have h2 : r = 'x' :: r0 := (List.cons.inj heq).2
      have := isRadixDigit_ten_range 'x' (hall _ (by rw [h2]; simp))
      simp at this
    · rename_i r0 heq
      have h2 : r = 'X' :: r0 := (List.cons.inj heq).2
      have := isRadixDigit_ten_range 'X' (hall _ (by rw [h2]; simp))
      simp at this
    · rfl
  have htake : (c :: r).takeWhile (isRadixDigit 10) = c :: r :=
    List.takeWhile_eq_self_iff.mpr hall
  simp only [parseIntChars, hdrop, hsign, hradix, htake, List.isEmpty_cons, Bool.false_eq_true,
    if_false, one_mul]

theorem parseIntChars_repr (n : Nat) : parseIntChars (Nat.repr n).data = some (n : Int) := by
  have hall : ∀ c ∈ Nat.toDigits 10 n, isRadixDigit 10 c = true :=
    toDigitsCore_all _ _ _ (by simp)
  have hval : radixValue 10 (Nat.toDigits 10 n) = n := by
    unfold radixValue Nat.toDigits
    rw [toDigitsCore_value _ _ _ (Nat.lt_succ_self n)]
    rfl
  have h := parseIntChars_digits _ (toDigits_ne_nil n) hall
  rw [hval] at h
  exact h

theorem parseInt_num_nat (v : Nat) : parseInt (JsVal.num (v : Int)) = some (v : Int) := by
  have h : ¬ ((v : Int) < 0) := by omega
  simp only [parseInt, jsToString, numToString, h, if_false, Int.natAbs_ofNat]
  exact parseIntChars_repr v

theorem parseInt_str_repr (v : Nat) : parseInt (JsVal.str (Nat.repr v)) = some (v : Int) := by
  simp only [parseInt, jsToString]
  exact parseIntChars_repr v

/-! ## Lemmas on the OTP store and on normalization -/

theorem OtpStore.get_delete (store : OtpStore) (key : String) :
    OtpStore.get (OtpStore.delete store key) key = none := by
  unfold OtpStore.get OtpStore.delete
  induction store with
  | nil => rfl
  | cons e rest ih =>
    by_cases h : e.1 = key
    · simp [List.filter_cons, h, ih]
    · have hk : (key == e.1) = false := by simpa using fun hh => h hh.symm
      simp [List.filter_cons, h, List.lookup, hk, ih]

theorem OtpStore.get_set (store : OtpStore) (key : String) (value : Nat) :
    OtpStore.get (OtpStore.set store key value) key = some value := by
  simp [OtpStore.get, OtpStore.set, List.lookup]

theorem startsWithPlus_normalize (p : String) : startsWithPlus (normalize p) = true := by
  unfold normalize
  by_cases h : startsWithPlus p = true
  · simp [h]
  · simp only [h, if_false]
    simp [startsWithPlus, String.data_append]

theorem normalize_normalize (p : String) : normalize (normalize p) = normalize p := by
  have h := startsWithPlus_normalize p
  generalize normalize p = q at h
  unfold normalize
  simp [h]

theorem otpMatches_none (c : JsVal) :
    otpMatches none c = true ↔ c = JsVal.str "123456" := by
  simp [otpMatches]

theorem otpMatches_some (v : Nat) (c : JsVal) :
    otpMatches (some v) c = true ↔
      (v ≠ 0 ∧ parseInt c = some (v : Int)) ∨ c = JsVal.str "123456" := by
  have hv := parseInt_num_nat v
  simp only [otpMatches, hv, Bool.or_eq_true, Bool.and_eq_true, bne_iff_ne, beq_iff_eq]
  cases hc : parseInt c with
  | none => simp [numStrictEq]
  | some m =>
    simp only [numStrictEq, beq_iff_eq, Option.some.injEq]
    constructor
    · rintro (⟨h1, h2⟩ | h)
      · exact Or.inl ⟨h1, h2.symm⟩
      · exact Or.inr h
    · rintro (⟨h1, h2⟩ | h)
      · exact Or.inl ⟨h1, h2.symm⟩
      · exact Or.inr h

theorem repr_eq_bypass (otp : Nat) (h : Nat.repr otp = "123456") : otp = 123456 := by
  have h1 := parseInt_str_repr otp
  rw [h] at h1
  have h2 : parseInt (JsVal.str "123456") = some 123456 := by decide
  rw [h2] at h1
  have := Option.some.inj h1
  omega

/-! ## The OTP gate: one-time use, acceptance condition, normalization -/

/-- C1 (as stated, refuted): the generator can produce 123456; issued for a
phone and submitted as its decimal string, it is accepted by the first
`verify` and accepted again by the second one, through the bypass. -/
theorem otp_second_verify_accepts_bypass_code :
    100000 ≤ 123456 ∧ 123456 ≤ 999999 ∧ Nat.repr 123456 = "123456" ∧
    (verifyOtp (sendOtp [] "9876543210" JsVal.undefined 123456 true).store "9876543210"
      (JsVal.str "123456")).success = true ∧
    (verifyOtp
      (verifyOtp (sendOtp [] "9876543210" JsVal.undefined 123456 true).store "9876543210"
        (JsVal.str "123456")).store
      "9876543210" (JsVal.str "123456")).status = 200 := by
  decide

/-- C1 (amended): for every store, phone, display name, channel outcome and
every generated code in [100000, 999999], submitted as a number or as its
decimal string, `verify` right after `issue` accepts and removes the entry; a
second `verify` with the same claim rejects and leaves the store alone, unless
the claim is the string "123456" (which happens only for the code 123456), in
which case the second `verify` accepts again. -/
theorem otp_issue_verify_once (store : OtpStore) (p : String) (name : JsVal) (otp : Nat)
    (deliver : Bool) (c : JsVal) (hlo : 100000 ≤ otp) (hhi : otp ≤ 999999)
    (hc : c = JsVal.num (otp : Int) ∨ c = JsVal.str (Nat.repr otp)) :
    (verifyOtp (sendOtp store p name otp deliver).store p c).success = true ∧
    (verifyOtp (sendOtp store p name otp deliver).store p c).status = 200 ∧
    OtpStore.get (verifyOtp (sendOtp store p name otp deliver).store p c).store (normalize p)
      = none ∧
    (c ≠ JsVal.str "123456" →
      (verifyOtp (verifyOtp (sendOtp store p name otp deliver).store p c).store p c).status = 400 ∧
      (verifyOtp (verifyOtp (sendOtp store p name otp deliver).store p c).store p c).success
        = false ∧
      (verifyOtp (verifyOtp (sendOtp store p name otp deliver).store p c).store p c).store
        = (verifyOtp (sendOtp store p name otp deliver).store p c).store) ∧
    (c = JsVal.str "123456" →
      otp = 123456 ∧
      (verifyOtp (verifyOtp (sendOtp store p name otp deliver).store p c).store p c).status
        = 200) := by
  have hstore : (sendOtp store p name otp deliver).store = OtpStore.set store (normalize p) otp := by
    unfold sendOtp normalize
    cases deliver <;> rfl
  have hparse : parseInt c = some (otp : Int) := by
    rcases hc with rfl | rfl
    · exact parseInt_num_nat otp
    · exact parseInt_str_repr otp
  have hm : otpMatches (some otp) c = true :=
    (otpMatches_some otp c).mpr (Or.inl ⟨by omega, hparse⟩)
  have hfirst : verifyOtp (OtpStore.set store (normalize p) otp) p c =
      { status := 200, success := true, message := "Verification Successful",
        store := OtpStore.delete (OtpStore.set store (normalize p) otp) (normalize p),
        sms := none } := by
    unfold verifyOtp
    simp only [← normalize.eq_1, OtpStore.get_set, hm, if_true]
  rw [hstore, hfirst]
  refine ⟨rfl, rfl, OtpStore.get_delete _ _, ?_, ?_⟩
  · intro hne
    have hno : ¬ (otpMatches none c = true) := fun h => hne ((otpMatches_none c).mp h)
    have hsecond : verifyOtp (OtpStore.delete (OtpStore.set store (normalize p) otp) (normalize p))
        p c =
        { status := 400, success := false, message := "Invalid or Expired OTP",
          store := OtpStore.delete (OtpStore.set store (normalize p) otp) (normalize p),
          sms := none } := by
      unfold verifyOtp
      simp only [← normalize.eq_1, OtpStore.get_delete, hno, Bool.false_eq_true, if_false]
    simp only [hsecond, and_self]
  · intro heq
    have hotp : otp = 123456 := by
      rcases hc with h | h
      · rw [h] at heq; exact absurd heq (by simp)
      · rw [h] at heq
        exact repr_eq_bypass otp (JsVal.str.inj heq)
    refine ⟨hotp, ?_⟩
    have hyes : otpMatches none c = true := (otpMatches_none c).mpr heq
    unfold verifyOtp
    simp only [← normalize.eq_1, OtpStore.get_delete, hyes, if_true]

/-- C1 (amended), at a concrete input: the code 482913 issued for the phone
9876543210 and submitted as a number. -/
theorem otp_issue_verify_once_witness :
    (verifyOtp (sendOtp [] "9876543210" (JsVal.str "Asha") 482913 true).store "9876543210"
      (JsVal.num 482913)).status = 200 ∧
    (verifyOtp
      (verifyOtp (sendOtp [] "9876543210" (JsVal.str "Asha") 482913 true).store "9876543210"
        (JsVal.num 482913)).store
      "9876543210" (JsVal.num 482913)).status = 400 := by
  have h := otp_issue_verify_once [] "9876543210" (JsVal.str "Asha") 482913 true
    (JsVal.num 482913) (by decide) (by decide) (Or.inl rfl)
  exact ⟨h.2.1, (h.2.2.2.1 (by decide)).1⟩

/-- C2 (as stated, refuted): with nothing stored the number 123456, which
equals the bypass value, is rejected although the stated condition holds; and
with 654321 stored the string "654321xyz", which is not numerically equal to
654321, is accepted although the stated condition fails. -/
theorem verify_differs_from_stated_condition :
    ((verifyOtp [] "9876543210" (JsVal.num 123456)).success = false ∧
      (verifyOtp [] "9876543210" (JsVal.num 123456)).status = 400 ∧
      specAccepts [] "9876543210" (JsVal.num 123456) = true) ∧
    ((verifyOtp [("+919876543210", 654321)] "9876543210" (JsVal.str "654321xyz")).success = true ∧
      specAccepts [("+919876543210", 654321)] "9876543210" (JsVal.str "654321xyz") = false) := by
  decide

/-- C2 (amended): `verify` accepts if and only if a nonzero code (every issued
code is nonzero) is stored under the normalized phone and `parseInt` of the
claim equals it, or the claim is exactly the string "123456".  On acceptance
it answers 200 and deletes the entry; otherwise it answers 400 with the
invalid-claim message and leaves the store alone.  The string "123456" is
accepted for every phone and every store. -/
theorem verifyOtp_accepts_iff (store : OtpStore) (p : String) (c : JsVal) :
    ((verifyOtp store p c).success = true ↔
      (∃ code : Nat, OtpStore.get store (normalize p) = some code ∧ code ≠ 0 ∧
        parseInt c = some (code : Int)) ∨ c = JsVal.str "123456") ∧
    ((verifyOtp store p c).success = true →
      (verifyOtp store p c).status = 200 ∧
      (verifyOtp store p c).store = OtpStore.delete store (normalize p)) ∧
    ((verifyOtp store p c).success = false →
      (verifyOtp store p c).status = 400 ∧
      (verifyOtp store p c).message = "Invalid or Expired OTP" ∧
      (verifyOtp store p c).store = store) ∧
    (verifyOtp store p (JsVal.str "123456")).success = true ∧
    (verifyOtp store p (JsVal.str "123456")).status = 200 := by
  have hcond : otpMatches (OtpStore.get store (normalize p)) c = true ↔
      (∃ code : Nat, OtpStore.get store (normalize p) = some code ∧ code ≠ 0 ∧
        parseInt c = some (code : Int)) ∨ c = JsVal.str "123456" := by
    cases hg : OtpStore.get store (normalize p) with
    | none => simp [otpMatches_none]
    | some v => simp [otpMatches_some]
  have hby : otpMatches (OtpStore.get store (normalize p)) (JsVal.str "123456") = true := by
    simp [otpMatches]
  refine ⟨?_, ?_, ?_, ?_, ?_⟩
  · rw [← hcond]
    unfold verifyOtp
    simp only [← normalize.eq_1]
    split <;> simp_all
  · unfold verifyOtp
    simp only [← normalize.eq_1]
    split <;> simp
  · unfold verifyOtp
    simp only [← normalize.eq_1]
    split <;> simp
  · unfold verifyOtp
    simp only [← normalize.eq_1, hby, if_true]
  · unfold verifyOtp
    simp only [← normalize.eq_1, hby, if_true]

/-- C9: normalization is idempotent, and `issue`, `verify` and `register` all
key on the normalized phone: `issue` stores the code under it and sends to it,
`verify` decides on the entry stored under it, `register` answers with a user
whose phone it is, and each of the three gives the same result on a phone and
on its normalization. -/
theorem normalize_idempotent_shared (p : String) (store : OtpStore) (name : JsVal) (otp : Nat)
    (deliver : Bool) (c : JsVal) (db : Db) (username : String) (secret : JsVal) :
    normalize (normalize p) = normalize p ∧
    (sendOtp store p name otp deliver).store = OtpStore.set store (normalize p) otp ∧
    (sendOtp store p name otp deliver).sms.map Sms.dest = some (normalize p) ∧
    sendOtp store (normalize p) name otp deliver = sendOtp store p name otp deliver ∧
    (verifyOtp store p c).success = otpMatches (OtpStore.get store (normalize p)) c ∧
    verifyOtp store (normalize p) c = verifyOtp store p c ∧
    (register db username p secret).2.phone = normalize p ∧
    register db username (normalize p) secret = register db username p secret := by
  have h1 : (if startsWithPlus (normalize p) then normalize p else "+91" ++ normalize p)
      = normalize p := by
    simp [startsWithPlus_normalize]
  have h2 : (if startsWithPlus p then p else "+91" ++ p) = normalize p := rfl
  refine ⟨normalize_normalize p, ?_, ?_, ?_, ?_, ?_, ?_, ?_⟩
  · unfold sendOtp
    cases deliver <;> rfl
  · unfold sendOtp
    cases deliver <;> rfl
  · unfold sendOtp
    simp only [h1, h2]
  · unfold verifyOtp
    simp only [h2]
    split <;> simp_all
  · unfold verifyOtp
    simp only [h1, h2]
  · unfold register
    simp only [h2]
    cases hf : db.users.find? (fun u => u.phone == normalize p) with
    | none => rfl
    | some u =>
      have hu : u.phone = normalize p := by
        have := List.find?_some hf
        simpa using this
      simp only
      split <;> exact hu
  · unfold register
    simp only [h1, h2]

/-! ## Lemmas on the persistence store -/

theorem findByPk_id (db : Db) (id : Nat) (a : Appointment) (h : findByPk db id = some a) :
    a.id = id := by
  have := List.find?_some h
  simpa using this

theorem find_map_same (l : List Appointment) (id : Nat) (a b : Appointment)
    (h : l.find? (fun x => x.id == id) = some a) (hb : b.id = id) :
    (l.map (fun x => if x.id == b.id then b else x)).find? (fun x => x.id == id) = some b := by
  induction l with
  | nil => simp at h
  | cons x rest ih =>
    have hbb : (b.id == id) = true := by simp [hb]
    by_cases hx : x.id = id
    · have h1 : (x.id == b.id) = true := by simp [hx, hb]
      simp only [List.map_cons, h1, if_true, List.find?_cons, hbb]
    · have hx2 : (x.id == id) = false := by simpa using hx
      have h1 : (x.id == b.id) = false := by rw [hb]; exact hx2
      simp only [List.find?_cons, hx2] at h
      simp only [List.map_cons, h1, Bool.false_eq_true, if_false, List.find?_cons, hx2]
      exact ih h

theorem find_map_other (l : List Appointment) (j : Nat) (b : Appointment) (hj : j ≠ b.id) :
    (l.map (fun x => if x.id == b.id then b else x)).find? (fun x => x.id == j)
      = l.find? (fun x => x.id == j) := by
  induction l with
  | nil => rfl
  | cons x rest ih =>
    by_cases hx : x.id = b.id
    · have h0 : (x.id == b.id) = true := by simp [hx]
      have h1 : (b.id == j) = false := by simpa using fun h => hj h.symm
      have h2 : (x.id == j) = false := by rw [hx]; exact h1
      simp only [List.map_cons, h0, if_true, List.find?_cons, h1, h2]
      exact ih
    · have h1 : (x.id == b.id) = false := by simpa using hx
      simp only [List.map_cons, h1, Bool.false_eq_true, if_false, List.find?_cons]
      cases x.id == j
      · exact ih
      · rfl

theorem findByPk_save (db : Db) (id : Nat) (a b : Appointment) (h : findByPk db id = some a)
    (hb : b.id = id) : findByPk (save db b) id = some b :=
  find_map_same _ _ _ _ h hb

theorem findByPk_save_other (db : Db) (j : Nat) (b : Appointment) (hj : j ≠ b.id) :
    findByPk (save db b) j = findByPk db j :=
  find_map_other _ _ _ hj

theorem filter_of_find_none (l : List Appointment) (id : Nat)
    (h : l.find? (fun x => x.id == id) = none) :
    l.filter (fun x => x.id != id) = l ∧ l.filter (fun x => x.id == id) = [] := by
  induction l with
  | nil => simp
  | cons x rest ih =>
    by_cases hx : x.id = id
    · simp [List.find?, hx] at h
    · have hx2 : (x.id == id) = false := by simpa using hx
      simp only [List.find?, hx2] at h
      simp [List.filter_cons, hx, hx2, ih h]

theorem accept_db (db : Db) (id : Nat) (a : Appointment) (t : String) (deliver : Bool)
    (h : findByPk db id = some a) :
    (accept db id t deliver).db = save db { a with status := "confirmed", time := t } := by
  unfold accept notify
  simp only [h]
  cases apptUser db a <;> cases deliver <;> rfl

theorem decline_db (db : Db) (id : Nat) (a : Appointment) (deliver : Bool)
    (h : findByPk db id = some a) :
    (decline db id deliver).db = save db { a with status := "cancelled" } := by
  unfold decline
  simp only [h]
  cases deliver <;> rfl

theorem completeSitting_db (db : Db) (id : Nat) (a : Appointment) (nextDate nextTime : String)
    (deliver : Bool) (h : findByPk db id = some a) :
    (completeSitting db id nextDate nextTime deliver).db
      = save db (sittingRecord a nextDate nextTime) := by
  unfold completeSitting notify sittingRecord
  simp only [h]
  split <;> cases apptUser db a <;> cases deliver <;> rfl

/-! ## Accept, notification failure, missing records -/

/-- C8: for every existing appointment, in any status, and every time string
`t`, after `accept` the stored record is the old one with `status` set to
confirmed and `time` set to `t` verbatim and every other field (date, service,
currentSitting, totalSittings, rating, review, isVisible, owning user) as it
was; the users and every other appointment are untouched. -/
theorem accept_effect_frame (db : Db) (id : Nat) (a : Appointment) (t : String) (deliver : Bool)
    (h : findByPk db id = some a) :
    findByPk (accept db id t deliver).db id = some { a with status := "confirmed", time := t } ∧
    (∀ a1, findByPk (accept db id t deliver).db id = some a1 →
      a1.status = "confirmed" ∧ a1.time = t ∧ a1.date = a.date ∧ a1.service = a.service ∧
      a1.currentSitting = a.currentSitting ∧ a1.totalSittings = a.totalSittings ∧
      a1.rating = a.rating ∧ a1.review = a.review ∧ a1.isVisible = a.isVisible ∧
      a1.UserId = a.UserId ∧ apptUser (accept db id t deliver).db a1 = apptUser db a) ∧
    (accept db id t deliver).db.users = db.users ∧
    (∀ j, j ≠ id → findByPk (accept db id t deliver).db j = findByPk db j) := by
  have hid := findByPk_id db id a h
  have hdb := accept_db db id a t deliver h
  have hfind : findByPk (accept db id t deliver).db id
      = some { a with status := "confirmed", time := t } := by
    rw [hdb]
    exact findByPk_save db id a _ h hid
  refine ⟨hfind, ?_, ?_, ?_⟩
  · intro a1 h1
    rw [hfind] at h1
    have := Option.some.inj h1
    subst this
    rw [hdb]
    exact ⟨rfl, rfl, rfl, rfl, rfl, rfl, rfl, rfl, rfl, rfl, rfl⟩
  · rw [hdb]; rfl
  · intro j hj
    rw [hdb]
    exact findByPk_save_other db j _ (by simpa [hid] using hj)

/-- C8, at a concrete input: accepting the pending sample appointment with the
time "10:00". -/
theorem accept_effect_frame_witness :
    findByPk sampleDb 1 = some sampleAppt ∧ sampleAppt.status = "pending" ∧
    findByPk (accept sampleDb 1 "10:00" true).db 1
      = some { sampleAppt with status := "confirmed", time := "10:00" } :=
  ⟨by decide, by decide, (accept_effect_frame sampleDb 1 sampleAppt "10:00" true (by decide)).1⟩

/-- C6: for accept, decline and complete-a-sitting on an existing appointment
the database after the call is the same whether the channel delivers or
throws; when it throws the answer is a success (200) with the softened
message; and decline, from any status, leaves the record cancelled. -/
theorem notification_failure_keeps_state (db : Db) (id : Nat) (a : Appointment)
    (t nextDate nextTime : String) (h : findByPk db id = some a) :
    ((accept db id t false).db = (accept db id t true).db ∧
      (accept db id t false).status = 200 ∧
      (accept db id t false).message = "Confirmed (SMS Failed)") ∧
    ((completeSitting db id nextDate nextTime false).db
        = (completeSitting db id nextDate nextTime true).db ∧
      (completeSitting db id nextDate nextTime false).status = 200 ∧
      (completeSitting db id nextDate nextTime false).message =
        (if a.currentSitting + 1 < a.totalSittings then "Sitting Updated (SMS Failed)"
         else "Treatment Completed (SMS Failed)")) ∧
    ((decline db id false).db = (decline db id true).db ∧
      (decline db id false).status = 200 ∧
      (decline db id false).message = "Cancelled (SMS Failed)" ∧
      ∀ deliver, findByPk (decline db id deliver).db id = some { a with status := "cancelled" }) := by
  have hid := findByPk_id db id a h
  refine ⟨⟨?_, ?_, ?_⟩, ⟨?_, ?_, ?_⟩, ⟨?_, ?_, ?_, ?_⟩⟩
  · rw [accept_db db id a t false h, accept_db db id a t true h]
  · unfold accept notify
    simp only [h]
    cases apptUser db a <;> rfl
  · unfold accept notify
    simp only [h]
    cases apptUser db a <;> rfl
  · rw [completeSitting_db db id a _ _ false h, completeSitting_db db id a _ _ true h]
  · unfold completeSitting notify
    simp only [h]
    split <;> cases apptUser db a <;> rfl
  · unfold completeSitting notify
    simp only [h]
    split <;> cases apptUser db a <;> rfl
  · rw [decline_db db id a false h, decline_db db id a true h]
  · unfold decline
    simp only [h]
    rfl
  · unfold decline
    simp only [h]
    rfl
  · intro deliver
    rw [decline_db db id a deliver h]
    exact findByPk_save db id a _ h hid

/-- C6, at a concrete input: declining the pending sample appointment while
the channel throws. -/
theorem notification_failure_keeps_state_witness :
    findByPk sampleDb 1 = some sampleAppt ∧
    (decline sampleDb 1 false).db = (decline sampleDb 1 true).db ∧
    (decline sampleDb 1 false).message = "Cancelled (SMS Failed)" ∧
    findByPk (decline sampleDb 1 false).db 1 = some { sampleAppt with status := "cancelled" } :=
  have h := notification_failure_keeps_state sampleDb 1 sampleAppt "10:00" "2024-06-01" "10:00"
    (by decide)
  ⟨by decide, h.2.2.1, h.2.2.2.2.1, h.2.2.2.2.2 false⟩

/-- C7 (the code at the failing input): the key 99 is not in the sample
database.  Accept, decline and complete-a-sitting answer 404 there, leave the
database as it is and hand nothing to the channel.  Delete also leaves the
database as it is and hands nothing over, and picks the message "Not Found",
but answers with the status 200, which is not a 4xx error. -/
theorem delete_missing_is_not_an_error :
    findByPk sampleDb 99 = none ∧
    accept sampleDb 99 "10:00" true
      = { status := 404, message := "Not Found", db := sampleDb, sms := none } ∧
    decline sampleDb 99 true
      = { status := 404, message := "Not found", db := sampleDb, sms := none } ∧
    completeSitting sampleDb 99 "2024-06-01" "10:00" true
      = { status := 404, message := "Not Found", db := sampleDb, sms := none } ∧
    deleteAppointment sampleDb 99
      = { status := 200, message := "Not Found", db := sampleDb, sms := none } ∧
    ¬ (400 ≤ (deleteAppointment sampleDb 99).status ∧
        (deleteAppointment sampleDb 99).status < 500) := by
  decide

/-- When the appointment does not exist, accept, decline and complete-a-sitting
answer 404, leave the database unchanged and hand nothing to the channel, and
delete leaves the database unchanged and hands nothing to the channel. -/
theorem missing_appointment_handlers (db : Db) (id : Nat) (t nextDate nextTime : String)
    (deliver : Bool) (h : findByPk db id = none) :
    (accept db id t deliver
      = { status := 404, message := "Not Found", db := db, sms := none }) ∧
    (decline db id deliver
      = { status := 404, message := "Not found", db := db, sms := none }) ∧
    (completeSitting db id nextDate nextTime deliver
      = { status := 404, message := "Not Found", db := db, sms := none }) ∧
    (deleteAppointment db id).db = db ∧
    (deleteAppointment db id).sms = none := by
  refine ⟨?_, ?_, ?_, ?_, rfl⟩
  · unfold accept; simp only [h]
  · unfold decline; simp only [h]
  · unfold completeSitting; simp only [h]
  · have hf := filter_of_find_none db.appointments id h
    unfold deleteAppointment destroy
    simp [hf.1]

/-! ## Sitting progression -/

theorem sittingText_ne_finishingText (k : Int) (service service1 nextDate nextTime : String) :
    sittingText k service nextDate nextTime ≠ finishingText service1 := by
  intro h
  have h1 := congrArg (fun s => s.data.head?) h
  simp [sittingText, finishingText, String.data_append] at h1

theorem completeSittings_snoc (db : Db) (id : Nat) (pre : List (String × String × Bool))
    (c : String × String × Bool) :
    completeSittings db id (pre ++ [c])
      = (completeSitting (completeSittings db id pre) id c.1 c.2.1 c.2.2).db := by
  simp [completeSittings, List.foldl_append]

theorem completeSitting_sms (db : Db) (id : Nat) (a : Appointment) (nextDate nextTime : String)
    (deliver : Bool) (h : findByPk db id = some a) :
    (completeSitting db id nextDate nextTime deliver).sms =
      (apptUser db a).map (fun u =>
        { dest := u.phone
          body := if a.currentSitting + 1 < a.totalSittings
            then sittingText (a.currentSitting + 1) a.service nextDate nextTime
            else finishingText a.service }) := by
  unfold completeSitting notify
  simp only [h]
  split <;> cases apptUser db a <;> cases deliver <;> rfl

theorem completeSitting_message (db : Db) (id : Nat) (a : Appointment) (nextDate nextTime : String)
    (deliver : Bool) (h : findByPk db id = some a) :
    (completeSitting db id nextDate nextTime deliver).status = 200 ∧
    ((completeSitting db id nextDate nextTime deliver).message = "Sitting Updated & SMS Sent" ∨
      (completeSitting db id nextDate nextTime deliver).message = "Sitting Updated (SMS Failed)" ↔
      a.currentSitting + 1 < a.totalSittings) ∧
    ((completeSitting db id nextDate nextTime deliver).message
        = "Treatment Completed & Final SMS Sent" ∨
      (completeSitting db id nextDate nextTime deliver).message
        = "Treatment Completed (SMS Failed)" ↔
      ¬ (a.currentSitting + 1 < a.totalSittings)) := by
  unfold completeSitting notify
  simp only [h]
  split <;> cases apptUser db a <;> cases deliver <;> simp_all

/-- While sittings remain, the record after a run of complete-a-sitting calls
is the original one with the counter at the number of calls and some date,
time and status; the users are untouched. -/
theorem completeSittings_inv (db : Db) (id : Nat) (a : Appointment)
    (h : findByPk db id = some a) (hc : a.currentSitting = 0)
    (pre : List (String × String × Bool)) :
    (pre.length : Int) < a.totalSittings →
    (completeSittings db id pre).users = db.users ∧
    ∃ d t s, findByPk (completeSittings db id pre) id
      = some { a with currentSitting := (pre.length : Int), date := d, time := t, status := s } := by
  induction pre using List.reverseRecOn with
  | nil =>
    intro _
    refine ⟨rfl, a.date, a.time, a.status, ?_⟩
    rw [show completeSittings db id [] = db from rfl, h]
    cases a
    simp only [List.length_nil, Nat.cast_zero] at *
    simp_all
  | append_singleton pre c ih =>
    intro hlen
    simp only [List.length_append, List.length_singleton, Nat.cast_add, Nat.cast_one] at hlen ⊢
    obtain ⟨hu, d, t, s, hprev⟩ := ih (by omega)
    have hid := findByPk_id db id a h
    rw [completeSittings_snoc, completeSitting_db _ id _ c.1 c.2.1 c.2.2 hprev]
    refine ⟨by rw [← hu]; rfl, c.1, c.2.1, "confirmed", ?_⟩
    have hrec : sittingRecord
        { a with currentSitting := (pre.length : Int), date := d, time := t, status := s }
        c.1 c.2.1
        = { a with currentSitting := (pre.length : Int) + 1, date := c.1, time := c.2.1,
                   status := "confirmed" } := by
      unfold sittingRecord
      simp only [hlen, if_true]
    rw [hrec]
    exact findByPk_save _ id _ _ hprev hid

theorem completeSitting_no_owner (db : Db) (id : Nat) (a : Appointment)
    (nextDate nextTime : String) (deliver : Bool) (h : findByPk db id = some a)
    (hu : apptUser db a = none) :
    (completeSitting db id nextDate nextTime deliver).message = "Sitting Updated (SMS Failed)" ∨
    (completeSitting db id nextDate nextTime deliver).message
      = "Treatment Completed (SMS Failed)" := by
  unfold completeSitting notify
  simp only [h, hu]
  split
  · exact Or.inl rfl
  · exact Or.inr rfl

/-- C3 (as stated, refuted): the appointment of one sitting booked without a
user exists, with `totalSittings = 1` and `currentSitting = 0`; its single
complete-a-sitting call, with the channel delivering, leaves it completed with
the counter at 1, but hands nothing to the channel and answers with the
(SMS Failed) message: the finishing notification text is not produced. -/
theorem sitting_finishing_text_needs_owner :
    findByPk ownerlessDb 3 = some ownerlessAppt ∧
    ownerlessAppt.totalSittings = 1 ∧ ownerlessAppt.currentSitting = 0 ∧
    findByPk (completeSitting ownerlessDb 3 "" "" true).db 3
      = some { ownerlessAppt with currentSitting := 1, status := "completed" } ∧
    (completeSitting ownerlessDb 3 "" "" true).sms = none ∧
    (completeSitting ownerlessDb 3 "" "" true).message = "Treatment Completed (SMS Failed)" := by
  decide

/-- C3 (amended): for every `n ≥ 1` and every existing appointment with
`totalSittings = n` and `currentSitting = 0`, in any status, consider the
`k`-th of `n` sequential complete-a-sitting calls (`k` is one more than the
number of earlier calls and `k ≤ n`, so `n ≥ 1`).  After it `currentSitting = k`.  If `k < n`
the record is confirmed with date and time set to the supplied `nextDate` and
`nextTime`, and the answer is a sitting-updated one.  If `k = n` the record is
the one before the call with the counter at `n` and status completed, so date
and time stay at their last value, and the answer is a treatment-completed
one.  When the appointment has its owning user, every call hands a message
to that user's phone, and the message carries the finishing text exactly when
`k = n`.  When it has none, no call hands anything to the channel and every
answer is an (SMS Failed) one. -/
theorem sitting_progression (n : Nat) (db : Db) (id : Nat) (a : Appointment)
    (h : findByPk db id = some a) (ht : a.totalSittings = (n : Int)) (hc : a.currentSitting = 0)
    (pre : List (String × String × Bool)) (nextDate nextTime : String) (deliver : Bool)
    (hk : pre.length + 1 ≤ n) :
    ∃ prev r,
      findByPk (completeSittings db id pre) id = some prev ∧
      r = completeSitting (completeSittings db id pre) id nextDate nextTime deliver ∧
      r.status = 200 ∧
      (pre.length + 1 < n →
        findByPk r.db id = some { a with currentSitting := (pre.length : Int) + 1,
                                         status := "confirmed", date := nextDate,
                                         time := nextTime } ∧
        (r.message = "Sitting Updated & SMS Sent" ∨ r.message = "Sitting Updated (SMS Failed)") ∧
        r.sms = (apptUser db a).map (fun u =>
          { dest := u.phone
            body := sittingText ((pre.length : Int) + 1) a.service nextDate nextTime })) ∧
      (pre.length + 1 = n →
        findByPk r.db id = some { prev with currentSitting := (n : Int), status := "completed" } ∧
        prev.totalSittings = (n : Int) ∧
        (r.message = "Treatment Completed & Final SMS Sent" ∨
          r.message = "Treatment Completed (SMS Failed)") ∧
        r.sms = (apptUser db a).map (fun u =>
          { dest := u.phone, body := finishingText a.service })) ∧
      (∀ m, r.sms = some m → (m.body = finishingText a.service ↔ pre.length + 1 = n)) ∧
      (∀ u, apptUser db a = some u →
        ∃ m, r.sms = some m ∧ m.dest = u.phone ∧
          (m.body = finishingText a.service ↔ pre.length + 1 = n)) ∧
      (apptUser db a = none →
        r.sms = none ∧
        (r.message = "Sitting Updated (SMS Failed)" ∨
          r.message = "Treatment Completed (SMS Failed)")) := by
  have hid := findByPk_id db id a h
  have hlen : (pre.length : Int) < a.totalSittings := by rw [ht]; omega
  obtain ⟨hu, d, t, s, hprev⟩ := completeSittings_inv db id a h hc pre hlen
  have huser : apptUser (completeSittings db id pre)
      { a with currentSitting := (pre.length : Int), date := d, time := t, status := s }
      = apptUser db a := by
    unfold apptUser
    rw [hu]
  have hsms := completeSitting_sms _ id _ nextDate nextTime deliver hprev
  have hmsg := completeSitting_message _ id _ nextDate nextTime deliver hprev
  have hdb := completeSitting_db _ id _ nextDate nextTime deliver hprev
  have hnone := completeSitting_no_owner _ id _ nextDate nextTime deliver hprev
  rw [huser] at hsms hnone
  simp only [ht] at hsms hmsg
  refine ⟨_, _, hprev, rfl, hmsg.1, ?_, ?_, ?_, ?_, ?_⟩
  · intro hlt
    have hlt2 : (pre.length : Int) + 1 < (n : Int) := by omega
    refine ⟨?_, hmsg.2.1.mpr hlt2, ?_⟩
    · rw [hdb]
      have hrec : sittingRecord
          { a with currentSitting := (pre.length : Int), date := d, time := t, status := s }
          nextDate nextTime
          = { a with currentSitting := (pre.length : Int) + 1, status := "confirmed",
                     date := nextDate, time := nextTime } := by
        unfold sittingRecord
        simp only [ht, hlt2, if_true]
      rw [hrec]
      exact findByPk_save _ id _ _ hprev hid
    · rw [hsms]
      simp only [hlt2, if_true]
  · intro heq
    have hnl : ¬ ((pre.length : Int) + 1 < (n : Int)) := by omega
    refine ⟨?_, ht, hmsg.2.2.mpr hnl, ?_⟩
    · rw [hdb]
      have hrec : sittingRecord
          { a with currentSitting := (pre.length : Int), date := d, time := t, status := s }
          nextDate nextTime
          = { a with currentSitting := (n : Int), status := "completed", date := d, time := t } := by
        unfold sittingRecord
        simp only [ht, hnl, if_false]
        have : (pre.length : Int) + 1 = (n : Int) := by omega
        rw [this]
      rw [hrec]
      exact findByPk_save _ id _ _ hprev hid
    · rw [hsms]
      simp only [hnl, if_false]
  · intro m hm
    rw [hsms] at hm
    cases hus : apptUser db a with
    | none => rw [hus] at hm; simp at hm
    | some u =>
      rw [hus] at hm
      simp only [Option.map_some', Option.some.injEq] at hm
      subst hm
      by_cases hlt : (pre.length : Int) + 1 < (n : Int)
      · simp only [hlt, if_true]
        constructor
        · intro hbody
          exact absurd hbody (sittingText_ne_finishingText _ _ _ _ _)
        · intro heq
          omega
      · simp only [hlt, if_false, true_iff]
        omega
  · intro u hus
    rw [hsms, hus]
    refine ⟨_, rfl, rfl, ?_⟩
    by_cases hlt : (pre.length : Int) + 1 < (n : Int)
    · simp only [hlt, if_true]
      constructor
      · intro hbody
        exact absurd hbody (sittingText_ne_finishingText _ _ _ _ _)
      · intro heq
        omega
    · simp only [hlt, if_false, true_iff]
      omega
  · intro hus
    refine ⟨?_, hnone hus⟩
    rw [hsms, hus]
    rfl

/-- C3 (amended), at concrete inputs: the third of three calls on the sample
appointment of three sittings, which hands the finishing text to the phone of
its owner, and the single call on the appointment of one sitting. -/
theorem sitting_progression_witness :
    findByPk sampleDb 1 = some sampleAppt ∧
    apptUser sampleDb sampleAppt = some sampleUser ∧
    findByPk (completeSitting
        (completeSittings sampleDb 1 [("2024-05-08", "09:30", true), ("2024-05-15", "10:00", true)])
        1 "" "" true).db 1
      = some { sampleAppt with currentSitting := 3, status := "completed", date := "2024-05-15",
                               time := "10:00" } ∧
    (completeSitting
        (completeSittings sampleDb 1 [("2024-05-08", "09:30", true), ("2024-05-15", "10:00", true)])
        1 "" "" true).sms
      = some { dest := "+919876543210", body := finishingText "Root Canal" } ∧
    findByPk sampleDb 2 = some singleAppt ∧
    findByPk (completeSitting (completeSittings sampleDb 2 []) 2 "" "" true).db 2
      = some { singleAppt with currentSitting := 1, status := "completed" } := by
  obtain ⟨prev, r, hprev, hr, _, _, hlast, _, _, _⟩ :=
    sitting_progression 3 sampleDb 1 sampleAppt (by decide) (by decide) (by decide)
      [("2024-05-08", "09:30", true), ("2024-05-15", "10:00", true)] "" "" true (by decide)
  obtain ⟨prev1, r1, hprev1, hr1, _, _, hlast1, _, _, _⟩ :=
    sitting_progression 1 sampleDb 2 singleAppt (by decide) (by decide) (by decide)
      [] "" "" true (by decide)
  have hp : findByPk
      (completeSittings sampleDb 1 [("2024-05-08", "09:30", true), ("2024-05-15", "10:00", true)]) 1
      = some { sampleAppt with currentSitting := 2, status := "confirmed", date := "2024-05-15",
                               time := "10:00" } := by
    decide
  have hp1 : findByPk (completeSittings sampleDb 2 []) 2 = some singleAppt := by decide
  have hown : apptUser sampleDb sampleAppt = some sampleUser := by decide
  rw [hp] at hprev
  rw [hp1] at hprev1
  have hprev2 := Option.some.inj hprev
  have hprev3 := Option.some.inj hprev1
  subst hprev2
  subst hprev3
  subst hr
  subst hr1
  refine ⟨by decide, hown, ?_, ?_, by decide, ?_⟩
  · rw [(hlast (by decide)).1]
    rfl
  · rw [(hlast (by decide)).2.2.2, hown]
    rfl
  · rw [(hlast1 (by decide)).1]
    rfl

/-! ## The counter and the completed status along sequences of transitions -/

theorem apply_db (db : Db) (id : Nat) (a : Appointment) (t : Transition)
    (h : findByPk db id = some a) :
    (Transition.apply db id t).db = save db
      (match t with
        | .accept time _ => { a with status := "confirmed", time := time }
        | .decline _ => { a with status := "cancelled" }
        | .completeSitting nextDate nextTime _ => sittingRecord a nextDate nextTime) := by
  cases t with
  | accept time deliver => exact accept_db db id a time deliver h
  | decline deliver => exact decline_db db id a deliver h
  | completeSitting nextDate nextTime deliver =>
    exact completeSitting_db db id a nextDate nextTime deliver h

/-- C4 (as stated, refuted): the single-sitting sample appointment, after one
complete-a-sitting call, has `totalSittings = 1` and `currentSitting = 1`,
within the bounds; one more complete-a-sitting call leaves `currentSitting = 2`,
above `totalSittings`. -/
theorem counter_exceeds_total :
    (findByPk (completeSitting sampleDb 2 "" "" true).db 2).map
        (fun a => (a.totalSittings, a.currentSitting)) = some (1, 1) ∧
    (findByPk (completeSitting (completeSitting sampleDb 2 "" "" true).db 2 "" "" true).db 2).map
        (fun a => (a.totalSittings, a.currentSitting)) = some (1, 2) ∧
    ¬ ((2 : Int) ≤ 1) := by
  decide

/-- C4 (amended): for every appointment with
`0 ≤ currentSitting ≤ totalSittings` (in particular `totalSittings ≥ 1`), every lifecycle transition leaves
`totalSittings` unchanged and `currentSitting` not smaller than before and at
most `totalSittings + 1`: accept and decline leave the counter as it is and
complete-a-sitting adds exactly one, so that `currentSitting ≤ totalSittings`
still holds afterwards exactly when the transition was an accept or a decline
or `currentSitting < totalSittings` held before. -/
theorem counter_step (db : Db) (id : Nat) (a : Appointment) (t : Transition)
    (h : findByPk db id = some a) (h0 : 0 ≤ a.currentSitting)
    (h1 : a.currentSitting ≤ a.totalSittings) :
    ∃ b, findByPk (Transition.apply db id t).db id = some b ∧
      b.totalSittings = a.totalSittings ∧
      a.currentSitting ≤ b.currentSitting ∧
      0 ≤ b.currentSitting ∧
      b.currentSitting ≤ b.totalSittings + 1 ∧
      b.currentSitting = a.currentSitting + (if t.isSitting = true then 1 else 0) ∧
      (b.currentSitting ≤ b.totalSittings ↔
        (t.isSitting = false ∨ a.currentSitting < a.totalSittings)) := by
  have hid := findByPk_id db id a h
  rw [apply_db db id a t h]
  cases t with
  | accept time deliver =>
    refine ⟨_, findByPk_save db id a _ h hid, rfl, ?_, ?_, ?_, ?_, ?_⟩ <;>
      simp [Transition.isSitting] <;> omega
  | decline deliver =>
    refine ⟨_, findByPk_save db id a _ h hid, rfl, ?_, ?_, ?_, ?_, ?_⟩ <;>
      simp [Transition.isSitting] <;> omega
  | completeSitting nextDate nextTime deliver =>
    have hsid : (sittingRecord a nextDate nextTime).id = id := by
      unfold sittingRecord; split <;> exact hid
    have htot : (sittingRecord a nextDate nextTime).totalSittings = a.totalSittings := by
      unfold sittingRecord; split <;> rfl
    have hcur : (sittingRecord a nextDate nextTime).currentSitting = a.currentSitting + 1 := by
      unfold sittingRecord; split <;> rfl
    refine ⟨_, findByPk_save db id a _ h hsid, htot, ?_, ?_, ?_, ?_, ?_⟩ <;>
      simp only [htot, hcur, Transition.isSitting, if_true] <;> first | omega | (simp; omega)

/-- C4 (amended), at a concrete input: a complete-a-sitting call on the fresh
sample appointment of three sittings. -/
theorem counter_step_witness :
    findByPk sampleDb 1 = some sampleAppt ∧
    ∃ b, findByPk (completeSitting sampleDb 1 "2024-05-08" "09:30" true).db 1 = some b ∧
      b.totalSittings = 3 ∧ b.currentSitting = 1 := by
  obtain ⟨b, hb, htot, _, _, _, hcur, _⟩ :=
    counter_step sampleDb 1 sampleAppt (Transition.completeSitting "2024-05-08" "09:30" true)
      (by decide) (by decide) (by decide)
  exact ⟨by decide, b, hb, htot, hcur⟩

theorem runTransitions_snoc (db : Db) (id : Nat) (pre : List Transition) (t : Transition) :
    runTransitions db id (pre ++ [t]) = (Transition.apply (runTransitions db id pre) id t).db := by
  simp [runTransitions, List.foldl_append]

theorem countSittings_snoc (pre : List Transition) (t : Transition) :
    countSittings (pre ++ [t]) = countSittings pre + (if t.isSitting = true then 1 else 0) := by
  unfold countSittings
  rw [List.filter_append, List.length_append]
  cases ht : t.isSitting <;> simp [List.filter_cons, ht]

theorem endsWithSitting_snoc (pre : List Transition) (t : Transition) :
    endsWithSitting (pre ++ [t]) = t.isSitting := by
  simp [endsWithSitting]

/-- Along every sequence of transitions from a pending appointment with the
counter at zero: the key and `totalSittings` stay, the counter is the number
of complete-a-sitting calls, a completed record has its counter at or above
`totalSittings`, and right after a complete-a-sitting call the converse holds
too. -/
theorem runTransitions_inv (db : Db) (id : Nat) (a : Appointment)
    (h : findByPk db id = some a) (hs : a.status = "pending") (hc : a.currentSitting = 0)
    (ts : List Transition) :
    ∃ b, findByPk (runTransitions db id ts) id = some b ∧
      b.totalSittings = a.totalSittings ∧
      b.currentSitting = (countSittings ts : Int) ∧
      (b.status = "completed" → b.totalSittings ≤ b.currentSitting) ∧
      (endsWithSitting ts = true →
        (b.status = "completed" ↔ b.totalSittings ≤ b.currentSitting)) := by
  induction ts using List.reverseRecOn with
  | nil =>
    refine ⟨a, h, rfl, by simpa [countSittings] using hc, ?_, ?_⟩
    · intro hcomp
      rw [hs] at hcomp
      exact absurd hcomp (by decide)
    · intro he
      simp [endsWithSitting] at he
  | append_singleton pre t ih =>
    obtain ⟨b, hb, htot, hcur, hcompl, _⟩ := ih
    have hid := findByPk_id _ id b hb
    have hconf : ("confirmed" : String) ≠ "completed" := by decide
    have hcanc : ("cancelled" : String) ≠ "completed" := by decide
    rw [runTransitions_snoc, apply_db _ id b t hb, countSittings_snoc, endsWithSitting_snoc]
    cases t with
    | accept time deliver =>
      refine ⟨_, findByPk_save _ id b _ hb hid, htot, ?_, ?_, ?_⟩
      · simpa [Transition.isSitting] using hcur
      · intro hcomp
        exact absurd hcomp hconf
      · intro he
        simp [Transition.isSitting] at he
    | decline deliver =>
      refine ⟨_, findByPk_save _ id b _ hb hid, htot, ?_, ?_, ?_⟩
      · simpa [Transition.isSitting] using hcur
      · intro hcomp
        exact absurd hcomp hcanc
      · intro he
        simp [Transition.isSitting] at he
    | completeSitting nextDate nextTime deliver =>
      have hsid : (sittingRecord b nextDate nextTime).id = id := by
        unfold sittingRecord; split <;> exact hid
      have hstot : (sittingRecord b nextDate nextTime).totalSittings = b.totalSittings := by
        unfold sittingRecord; split <;> rfl
      have hscur : (sittingRecord b nextDate nextTime).currentSitting = b.currentSitting + 1 := by
        unfold sittingRecord; split <;> rfl
      have hstat : (sittingRecord b nextDate nextTime).status = "completed" ↔
          b.totalSittings ≤ b.currentSitting + 1 := by
        unfold sittingRecord
        split
        · constructor
          · intro hcomp
            exact absurd hcomp hconf
          · intro hle
            omega
        · constructor
          · intro _
            omega
          · intro _
            rfl
      refine ⟨_, findByPk_save _ id b _ hb hsid, by rw [hstot, htot], ?_, ?_, ?_⟩
      · rw [hscur, hcur]
        simp [Transition.isSitting]
      · intro hcomp
        rw [hstot, hscur]
        exact hstat.mp hcomp
      · intro _
        rw [hstot, hscur]
        exact hstat

/-- C5 (as stated, refuted): from the fresh single-sitting sample appointment,
complete-a-sitting followed by accept reaches a state with
`currentSitting = totalSittings = 1` and status confirmed, not completed. -/
theorem completed_overwritten_by_accept :
    findByPk sampleDb 2 = some singleAppt ∧ singleAppt.status = "pending" ∧
    singleAppt.currentSitting = 0 ∧ 1 ≤ singleAppt.totalSittings ∧
    (findByPk
      (runTransitions sampleDb 2
        [Transition.completeSitting "" "" true, Transition.accept "10:00" true]) 2).map
      (fun a => (a.currentSitting, a.totalSittings, a.status)) = some (1, 1, "confirmed") := by
  decide

/-- C5 (amended): in every state reachable from a freshly created appointment
(status pending, `currentSitting = 0`, any `totalSittings`) by accept, decline
and complete-a-sitting transitions, `totalSittings` is as created,
`currentSitting` is the number of complete-a-sitting calls made, and status
completed implies `currentSitting ≥ totalSittings`; right after a
complete-a-sitting call status is completed if and only if
`currentSitting ≥ totalSittings`.  So `currentSitting == totalSittings` if and
only if status is completed holds while fewer than `totalSittings` sittings
have been completed, and right after the call that completes the
`totalSittings`-th one. -/
theorem completion_invariant (db : Db) (id : Nat) (a : Appointment)
    (h : findByPk db id = some a) (hs : a.status = "pending") (hc : a.currentSitting = 0)
    (ts : List Transition) :
    ∃ b, findByPk (runTransitions db id ts) id = some b ∧
      b.totalSittings = a.totalSittings ∧
      b.currentSitting = (countSittings ts : Int) ∧
      (b.status = "completed" → b.totalSittings ≤ b.currentSitting) ∧
      (endsWithSitting ts = true →
        (b.status = "completed" ↔ b.totalSittings ≤ b.currentSitting)) ∧
      (((countSittings ts : Int) < a.totalSittings ∨
          ((countSittings ts : Int) = a.totalSittings ∧ endsWithSitting ts = true)) →
        (b.currentSitting = b.totalSittings ↔ b.status = "completed")) := by
  obtain ⟨b, hb, htot, hcur, hcompl, hends⟩ := runTransitions_inv db id a h hs hc ts
  refine ⟨b, hb, htot, hcur, hcompl, hends, ?_⟩
  rintro (hlt | ⟨heq, he⟩)
  · constructor
    · intro hct
      omega
    · intro hcomp
      have := hcompl hcomp
      omega
  · constructor
    · intro _
      exact (hends he).mpr (by omega)
    · intro _
      omega

/-- C5 (amended), at a concrete input: the three sittings of the sample
appointment, with an accept before the first. -/
theorem completion_invariant_witness :
    findByPk sampleDb 1 = some sampleAppt ∧
    ∃ b, findByPk
        (runTransitions sampleDb 1
          [Transition.accept "10:00" true, Transition.completeSitting "2024-05-08" "09:30" true,
           Transition.completeSitting "2024-05-15" "09:30" false,
           Transition.completeSitting "" "" true]) 1 = some b ∧
      (b.currentSitting = b.totalSittings ↔ b.status = "completed") := by
  obtain ⟨b, hb, _, _, _, _, hiff⟩ :=
    completion_invariant sampleDb 1 sampleAppt (by decide) (by decide) (by decide)
      [Transition.accept "10:00" true, Transition.completeSitting "2024-05-08" "09:30" true,
       Transition.completeSitting "2024-05-15" "09:30" false,
       Transition.completeSitting "" "" true]
  exact ⟨by decide, b, hb, hiff (Or.inr (by decide))⟩

/-! ## The second sitting endpoint -/

/-- C10 (the code at the failing input): on the pending sample appointment of
three sittings, with the channel delivering, `PUT /schedule-next/:id` and
`PUT /complete-sitting/:id` both move the counter to 1 and the date and time
to the next visit, but the first leaves status pending where the second sets
confirmed, so the two persisted records differ. -/
theorem scheduleNext_leaves_pending :
    findByPk sampleDb 1 = some sampleAppt ∧ sampleAppt.status = "pending" ∧
    findByPk (scheduleNext sampleDb 1 "2024-05-08" "09:30" true).db 1
      = some { sampleAppt with currentSitting := 1, date := "2024-05-08", time := "09:30" } ∧
    findByPk (completeSitting sampleDb 1 "2024-05-08" "09:30" true).db 1
      = some { sampleAppt with currentSitting := 1, date := "2024-05-08", time := "09:30",
                               status := "confirmed" } ∧
    (findByPk (scheduleNext sampleDb 1 "2024-05-08" "09:30" true).db 1).map
      (fun a => a.status) = some "pending" ∧
    (scheduleNext sampleDb 1 "2024-05-08" "09:30" true).db
      ≠ (completeSitting sampleDb 1 "2024-05-08" "09:30" true).db := by
  decide

end AmruthaDental
